import Mathlib

/-!
Shallow embedding of the core of `buckle` (a buck2 toolchain launcher),
translated from `src/main.rs` and `src/config.rs`.

The embedding models the resolution / cache / verification pipeline:
  * the release-index client (`get_releases`),
  * the pattern resolver inside `download_from_github`,
  * the archive extractor (`extract`),
  * the prelude consistency checker (`verify_prelude` together with
    `get_expected_prelude_hash`).

External effects (the filesystem, the network, the clock) are made explicit
parameters and explicit pieces of returned state.  Machine integers that the
code manipulates (Unix timestamps as `i64`) are modelled as `Int`; overflow
does not occur in any scenario considered here.
-/

namespace Buckle

/-! ## Data model (from `src/main.rs` and `src/config.rs`)

Only the fields of the GitHub `Release` / `Asset` records that the resolver
consults are modelled; the remaining JSON fields (`url`, `id`, `author`, ...)
are never read by the code under study.  URLs are modelled as strings. -/

structure Asset where
  name : String
  browser_download_url : String
deriving Repr, DecidableEq

structure Release where
  tag_name : String
  target_commitish : String
  name : Option String
  assets : List Asset
deriving Repr, DecidableEq

/-- Model of `config::GithubRelease`: owner/repo plus the version string regex. -/
structure GithubRelease where
  owner : String
  repo : String
  version : String
deriving Repr, DecidableEq

/-- Model of `config::PackageType`. -/
inductive PackageType
  | SingleFile
  | ZstdSingleFile
deriving Repr, DecidableEq

/-! ## Release index client: `get_releases`

`get_releases` consults `releases.json` in the cache directory.  The snapshot
file is modelled by its mtime (seconds since the epoch, as stored by the
filesystem) and its textual content.  The JSON parser (`serde_json::from_str`)
is an external collaborator and is passed in as a function; the outcome of the
HTTP GET to the release-listing endpoint is likewise passed in (`Except.error`
is a failed `send()`, `Except.ok text` is the response text). -/

structure Snapshot where
  mtime : Int
  content : String
deriving Repr, DecidableEq

inductive GetReleasesError
  | netError (e : String)
  | parseError (e : String)
deriving Repr, DecidableEq

/-- Observable actions of `get_releases`, in execution order. -/
inductive IndexEvent
  | parseSnapshot   -- `serde_json::from_str` on the snapshot file's content
  | netRequest      -- HTTP GET of the release-listing endpoint
  | writeSnapshot   -- `File::create` + `write_all` of the raw response text
  | parseResponse   -- `serde_json::from_str` on the response text
deriving Repr, DecidableEq

/-- The freshness test of `get_releases`:
`(curr_time - last_modification_time).abs() < 60 * 60`. -/
def isFresh (currTime : Int) (s : Snapshot) : Bool :=
  (currTime - s.mtime).natAbs < 60 * 60

/-- The network path of `get_releases` (lines 143-156 of `src/main.rs`):
GET the listing, persist the raw text, parse it.  On a failed `send()` the
error propagates via `?` and the snapshot file is untouched. -/
def fetchReleases (parse : String → Except String (List Release))
    (net : Except String String) (currTime : Int) (snapshot : Option Snapshot) :
    Except GetReleasesError (List Release) × Option Snapshot × List IndexEvent :=
  match net with
  | .error e => (.error (.netError e), snapshot, [.netRequest])
  | .ok text =>
      ((parse text).mapError GetReleasesError.parseError,
       some ⟨currTime, text⟩,
       [.netRequest, .writeSnapshot, .parseResponse])

/-- Model of `get_releases` (lines 124-157 of `src/main.rs`).  Returns the parsed
releases (or the error), the snapshot file after the call, and the trace of
observable actions. -/
def get_releases (parse : String → Except String (List Release))
    (net : Except String String) (currTime : Int) (snapshot : Option Snapshot) :
    Except GetReleasesError (List Release) × Option Snapshot × List IndexEvent :=
  match snapshot with
  | some s =>
      if isFresh currTime s then
        ((parse s.content).mapError GetReleasesError.parseError, some s, [.parseSnapshot])
      else
        fetchReleases parse net currTime snapshot
  | none => fetchReleases parse net currTime snapshot

/-- A concrete JSON parser stand-in used to evaluate the model on closed
inputs: accepts exactly the text `"[]"` (the empty release list). -/
def parseEmptyOnly : String → Except String (List Release) :=
  fun s => if s = "[]" then .ok [] else .error "invalid json"

/-! ## String templating: `str::replace`

`download_from_github` expands the artifact template with `str::replace`,
which rewrites every non-overlapping occurrence of the pattern, scanning left
to right and never rescanning the inserted replacement.  `replaceFuel` is
that scan; the fuel argument (instantiated with the length of the subject,
which the scan never exhausts for a nonempty pattern) only makes the
recursion structural.  The patterns used by the code (`%arch%`, `%os%`,
`%target%`, `%version%`) are nonempty literals, so the empty-pattern corner
of `str::replace` is never exercised and the guard below keeps the subject
unchanged there. -/

def replaceFuel (pat rep : List Char) : Nat → List Char → List Char
  | 0, s => s
  | _ + 1, [] => []
  | n + 1, c :: cs =>
    if pat ≠ [] ∧ pat.isPrefixOf (c :: cs) then
      rep ++ replaceFuel pat rep n ((c :: cs).drop pat.length)
    else
      c :: replaceFuel pat rep n cs

/-- Model of `s.replace(pat, rep)`, Rust's `str::replace`. -/
def replaceS (s pat rep : String) : String :=
  (replaceFuel pat.toList rep.toList s.toList.length s.toList).asString

/-! ## Pattern resolver: the selection loop of `download_from_github`
(lines 187-259 of `src/main.rs`)

Regular-expression matching (`Regex::new` + `is_match`) is an external
collaborator; it is passed in as a function `reMatch pattern text`.  The
loop-carried mutable state of `download_from_github` is `GhResolution`; the
loop body over releases is `releaseStep` and the inner loop over a release's
assets is `assetStep`.  Paths are modelled as their component lists.

Two remarks on source variables: inside the loop the source pushes onto the
destination path under its pre-rename name `path` (the same buffer as
`dir_path`), and compares `release.tag_name` against `version`, the binding
holding the configured version pattern `gh_release.version`.  The
`release.name.as_ref().ok_or_else(..)?` and the `unwrap_or` fallback of the
`%version%` substitution sit inside the branch where `release.name` matched
the version pattern, hence is `Some`; both are modelled by using that name
directly. -/

structure GhResolution where
  dir_path : List String
  release_name : Option String
  unpackable : Option (String × String)
  verbatim : List (String × String)
deriving Repr, DecidableEq

/-- The environment token substitution performed once, before the release
loop: `%arch%`, `%os%` and `%target%` (lines 200-203). -/
def expandEnvTokens (artifact_pattern arch os target : String) : String :=
  replaceS (replaceS (replaceS artifact_pattern "%arch%" arch) "%os%" os)
    "%target%" target

/-- The body of the inner `for asset in release.assets` loop
(lines 229-238): a name matching the compiled artifact pattern overwrites
`unpackable` (and records the release name); otherwise a name equal to
`"prelude"` is appended to `verbatim`. -/
def assetStep (reMatch : String → String → Bool) (artifact_name rname : String)
    (st : GhResolution) (asset : Asset) : GhResolution :=
  if reMatch artifact_name asset.name then
    { st with unpackable := some (asset.name, asset.browser_download_url),
              release_name := some rname }
  else if asset.name = "prelude" then
    { st with
        verbatim := st.verbatim ++ [(asset.name, asset.browser_download_url)] }
  else st

/-- The body of the outer `for release in releases` loop (lines 207-240). -/
def releaseStep (reMatch : String → String → Bool) (gh : GithubRelease)
    (artifactNameEnv : String) (st : GhResolution) (r : Release) :
    GhResolution :=
  match r.name with
  | none => st
  | some rname =>
    if reMatch gh.version rname then
      let st1 :=
        if r.tag_name = gh.version then
          { st with dir_path := st.dir_path ++ [r.target_commitish] }
        else
          { st with dir_path := st.dir_path ++ [rname] }
      let artifact_name := replaceS artifactNameEnv "%version%" rname
      r.assets.foldl (assetStep reMatch artifact_name rname) st1
    else st

/-- The whole selection loop of `download_from_github`: environment token
expansion followed by the fold over the releases in listing order. -/
def resolveAssets (reMatch : String → String → Bool)
    (artifact_pattern : String) (gh : GithubRelease)
    (arch os target : String) (output_dir : List String)
    (releases : List Release) : GhResolution :=
  releases.foldl
    (releaseStep reMatch gh (expandEnvTokens artifact_pattern arch os target))
    ⟨output_dir, none, none, []⟩

/-- Specification-side scan: the (asset name, url) pairs that match, in the
provider's listing order — an asset is listed when its release's display
name matches the version pattern and its own name matches that release's
expanded artifact pattern. -/
def matchingPairsOf (reMatch : String → String → Bool) (gh : GithubRelease)
    (anEnv : String) (r : Release) : List (String × String) :=
  match r.name with
  | none => []
  | some rname =>
    if reMatch gh.version rname then
      (r.assets.filter fun a =>
          reMatch (replaceS anEnv "%version%" rname) a.name).map
        fun a => (a.name, a.browser_download_url)
    else []

def scanMatches (reMatch : String → String → Bool) (gh : GithubRelease)
    (anEnv : String) (releases : List Release) : List (String × String) :=
  releases.flatMap (matchingPairsOf reMatch gh anEnv)

/-- Specification-side scan of the collected verbatim artifacts: assets named
`"prelude"` in a version-matching release whose name does NOT match the
expanded artifact pattern. -/
def verbatimPairsOf (reMatch : String → String → Bool) (gh : GithubRelease)
    (anEnv : String) (r : Release) : List (String × String) :=
  match r.name with
  | none => []
  | some rname =>
    if reMatch gh.version rname then
      (r.assets.filter fun a =>
          !reMatch (replaceS anEnv "%version%" rname) a.name
            && a.name == "prelude").map
        fun a => (a.name, a.browser_download_url)
    else []

def scanVerbatims (reMatch : String → String → Bool) (gh : GithubRelease)
    (anEnv : String) (releases : List Release) : List (String × String) :=
  releases.flatMap (verbatimPairsOf reMatch gh anEnv)

/-- A concrete regex-matcher instance used to evaluate the model on closed
inputs: the behaviour of `Regex::is_match` for a pattern that is a literal
(no metacharacters), namely substring containment. -/
def reMatchLit (pat s : String) : Bool := decide (pat.toList <:+: s.toList)

/-! ## `download_from_github` as a whole (lines 187-259)

After the selection loop the code bails if no asset matched; otherwise it
creates the destination directory when absent (`create_dir_all`) and issues
the HTTP GET for the selected asset — unconditionally: there is no check
whether the executable is already cached.  The returned triple is the
result (destination path and the URL the successful asset response came
from), the number of asset GET requests issued, and the directory-existence
state after the call.  `assetOk url` tells whether the GET to `url`
succeeds. -/

def download_from_github (reMatch : String → String → Bool)
    (artifact_pattern : String) (gh : GithubRelease)
    (arch os target : String) (releases : List Release)
    (output_dir : List String) (assetOk : String → Bool)
    (dirExists : List String → Bool) :
    Except String (List String × String) × Nat × (List String → Bool) :=
  let st := resolveAssets reMatch artifact_pattern gh arch os target
    output_dir releases
  match st.unpackable with
  | none =>
      (.error ("Could not find "
          ++ expandEnvTokens artifact_pattern arch os target ++ " in "
          ++ (st.release_name.getD gh.version) ++ ". Its possible "
          ++ gh.owner ++ " has changed their releasing method for "
          ++ gh.repo ++ ". Please update buckle."),
       0, dirExists)
  | some (_, url) =>
      let dirs' := fun q =>
        if dirExists st.dir_path then dirExists q
        else (q == st.dir_path || dirExists q)
      if assetOk url then (.ok (st.dir_path, url), 1, dirs')
      else (.error ("request failed: " ++ url), 1, dirs')

/-! ## Archive extractor: `extract` (lines 261-302)

The filesystem is a map from paths (component lists) to file data (byte
content plus a permission mode).  The extraction's external effects are
explicit inputs: `verbatim` carries, for each collected verbatim artifact,
the outcome of its HTTP GET (`Except.error` = failed fetch,
`Except.ok bytes` = the fetched body); `copyOutcome` is the outcome of
`io::copy` of the payload stream into the temp file and `decodeOutcome` the
outcome of `zstd::stream::copy_decode` (the error value carries the bytes
already written to the temp file when the stream or decoder failed
mid-way), with `package_type` dispatching between them exactly as the
source's `match` does.  `tmpName` is the fresh random name chosen by
`NamedTempFile::new_in(&dir_path)`; the `NamedTempFile` guard deletes the
temp file when `extract` returns early with an error.  The final rename
target `binary_path` is the destination directory joined with the binary's
name (`unpacked_name`). -/

abbrev FilePath' := List String

structure FileData where
  content : List Nat
  mode : Nat
deriving Repr, DecidableEq

def FS : Type := FilePath' → Option FileData

def fsSet (fs : FS) (p : FilePath') (d : FileData) : FS :=
  fun q => if q = p then some d else fs q

def fsRemove (fs : FS) (p : FilePath') : FS :=
  fun q => if q = p then none else fs q

inductive ExtractError
  | downloadFailed (name : String)   -- a verbatim artifact's GET failed
  | copyFailed                       -- io::copy failed (SingleFile)
  | decodeFailed                     -- zstd copy_decode failed (ZstdSingleFile)
deriving Repr, DecidableEq

/-- Observable actions of `extract`, in execution order. -/
inductive ExtractEvent
  | writeVerbatim (name : String)  -- verbatim artifact fetched + written
  | createTemp                     -- NamedTempFile::new_in(&dir_path)
  | copyDone                       -- payload fully consumed and flushed
  | chmod                          -- set_permissions 0o755
  | rename                         -- fs::rename(tmp, binary_path)
deriving Repr, DecidableEq

/-- Model of the `for (name, url) in verbatim` loop at the head of `extract`
(lines 270-279): each artifact is fetched and written to its final path in
the destination directory; a failed fetch propagates via `?`, stopping the
loop. -/
def writeVerbatims (dir_path : FilePath') :
    List (String × Except String (List Nat)) → FS →
      Option ExtractError × FS × List ExtractEvent
  | [], fs => (none, fs, [])
  | (name, res) :: rest, fs =>
    match res with
    | .error _ => (some (.downloadFailed name), fs, [])
    | .ok bytes =>
        let fs' := fsSet fs (dir_path ++ [name]) ⟨bytes, 0o644⟩
        let r := writeVerbatims dir_path rest fs'
        (r.1, r.2.1, .writeVerbatim name :: r.2.2)

/-- Model of `extract`: verbatim artifacts first, then the payload is streamed and
decoded into a temp file inside the destination directory, flushed, made
executable (0o755), and only then renamed to `binary_path`.  Returns the
result (`Ok(dir_path)` on success), the filesystem after the call, and the
trace of observable actions. -/
def extract (unpacked_name : String) (package_type : PackageType)
    (copyOutcome decodeOutcome : Except (List Nat) (List Nat))
    (verbatim : List (String × Except String (List Nat)))
    (dir_path : FilePath') (tmpName : String) (fs : FS) :
    Except ExtractError FilePath' × FS × List ExtractEvent :=
  match writeVerbatims dir_path verbatim fs with
  | (some e, fs1, evs) => (.error e, fs1, evs)
  | (none, fs1, evs) =>
      let tmpPath := dir_path ++ [tmpName]
      let fs2 := fsSet fs1 tmpPath ⟨[], 0o600⟩
      let outcome := match package_type with
        | .SingleFile => copyOutcome
        | .ZstdSingleFile => decodeOutcome
      match outcome with
      | .error partBytes =>
          -- the temp file holds the partially written bytes, then the
          -- NamedTempFile guard removes it as the error propagates
          let fs3 := fsRemove (fsSet fs2 tmpPath ⟨partBytes, 0o600⟩) tmpPath
          (.error (match package_type with
              | .SingleFile => .copyFailed
              | .ZstdSingleFile => .decodeFailed),
           fs3, evs ++ [.createTemp])
      | .ok bytes =>
          let fs3 := fsSet fs2 tmpPath ⟨bytes, 0o600⟩
          let fs4 := fsSet fs3 tmpPath ⟨bytes, 0o755⟩
          let binary_path := dir_path ++ [unpacked_name]
          let fs5 := fsSet (fsRemove fs4 tmpPath) binary_path ⟨bytes, 0o755⟩
          (.ok dir_path, fs5,
           evs ++ [.createTemp, .copyDone, .chmod, .rename])

/-! ## Consistency checker: `verify_prelude` (lines 433-460) together with
`get_expected_prelude_hash` (lines 304-320)

Source-control state is an explicit input: `projectRoot` is
`get_buck2_project_root()`, `repo` the outcome of
`git2::Repository::open_from_env()` (with its working directory and its
submodule table: `none` = no submodule at that path, `some none` = a
submodule without a workdir id, `some (some h)` = workdir id `h`), and
`cachedHashFile` the readable content of the cached `prelude_hash` file
(`none` = the file cannot be opened — `File::open(..).unwrap()` in
`get_expected_prelude_hash` then panics, aborting the process).  The
`.expect(..)` calls on a bare repository and on a prelude outside the
repository also panic; a panic aborts the launch. -/

structure GitRepo where
  workdir : Option (List String)
  submodules : List String → Option (Option String)

structure PreludeEnv where
  projectRoot : Option (List String)
  repo : Option GitRepo
  cachedHashFile : Option String

inductive PreludeOutcome
  | skipped                       -- nothing to check, no output
  | matched                       -- hashes equal, no output
  | warned (line1 line2 : String) -- diagnostic printed to stderr, launch proceeds
  | panicked (msg : String)       -- unwrap/expect failure: the process aborts
deriving Repr, DecidableEq

/-- Does the launch continue to run the resolved binary after the check? -/
def launchProceeds : PreludeOutcome → Bool
  | .panicked _ => false
  | _ => true

/-- Model of `Path::strip_prefix` on component lists. -/
def stripPathPre (pre p : List String) : Option (List String) :=
  if pre.isPrefixOf p then some (p.drop pre.length) else none

/-- Model of `Path::display` on component lists. -/
def pathStr (p : List String) : String := String.intercalate "/" p

/-- Model of `str::trim`: strip whitespace from both ends. -/
def trimS (s : String) : String :=
  ((s.toList.dropWhile Char.isWhitespace).reverse.dropWhile
    Char.isWhitespace).reverse.asString

/-- Model of `get_expected_prelude_hash`: opens the cached `prelude_hash` file with
`.unwrap()` — an unreadable file panics — and trims the content. -/
def get_expected_prelude_hash (cachedHashFile : Option String) :
    Except String String :=
  match cachedHashFile with
  | none => .error "called Result::unwrap on an Err value"
  | some content => .ok (trimS content)

/-- Model of `verify_prelude` plus the `mismatched_prelude_msg` it prints. -/
def verify_prelude (env : PreludeEnv) (prelude_path : String) :
    PreludeOutcome :=
  match env.projectRoot with
  | none => .skipped
  | some root =>
    let absolute_prelude_path := root ++ [prelude_path]
    match env.repo with
    | none => .skipped
    | some repo =>
      match repo.workdir with
      | none => .panicked "buck2 is not for bare git repos"
      | some git_workdir =>
        match stripPathPre git_workdir absolute_prelude_path with
        | none => .panicked "buck2 prelude is not in the same git repo"
        | some rel =>
          match repo.submodules rel with
          | none => .skipped
          | some none => .skipped
          | some (some prelude_hash) =>
            match get_expected_prelude_hash env.cachedHashFile with
            | .error e => .panicked e
            | .ok expected_hash =>
              if prelude_hash ≠ expected_hash then
                .warned
                  ("buckle: Git submodule for prelude (" ++ prelude_hash
                    ++ ") is not the expected " ++ expected_hash ++ ".")
                  ("buckle: cd " ++ pathStr absolute_prelude_path
                    ++ " && git fetch && git checkout " ++ expected_hash)
              else .matched

/-! ## Theorems: release index client -/

/-- Claim C4. Freshness window and persistence of `get_releases`:
if the snapshot file exists and its mtime is within one hour of the current
time, its content is parsed and returned with no network request; if the
snapshot is absent or outside the window, the network request is made, and on
success the raw response text is persisted verbatim as the new snapshot
before being parsed and returned. -/
theorem get_releases_fresh_and_persist
    (parse : String → Except String (List Release))
    (net : Except String String) (currTime : Int) (snapshot : Option Snapshot) :
    (∀ s, snapshot = some s → isFresh currTime s = true →
      get_releases parse net currTime snapshot =
        ((parse s.content).mapError GetReleasesError.parseError, some s,
          [IndexEvent.parseSnapshot]))
    ∧ ((∀ s, snapshot = some s → isFresh currTime s = false) →
      (IndexEvent.netRequest ∈ (get_releases parse net currTime snapshot).2.2
        ∧ ∀ text, net = .ok text →
          get_releases parse net currTime snapshot =
            ((parse text).mapError GetReleasesError.parseError,
             some ⟨currTime, text⟩,
             [IndexEvent.netRequest, IndexEvent.writeSnapshot,
              IndexEvent.parseResponse]))) := by
  constructor
  · intro s hs hf
    subst hs
    simp [get_releases, hf]
  · intro hstale
    have hfetch : get_releases parse net currTime snapshot =
        fetchReleases parse net currTime snapshot := by
      cases snapshot with
      | none => rfl
      | some s => simp [get_releases, hstale s rfl]
    constructor
    · rw [hfetch]
      cases net <;> simp [fetchReleases]
    · intro text htext
      subst htext
      rw [hfetch]
      rfl

/-- Witness for `get_releases_fresh_and_persist`: a fresh snapshot (mtime 100,
current time 200) is served without a network call, and an absent snapshot
leads to a fetch whose response text becomes the new snapshot. -/
theorem get_releases_fresh_and_persist_witness :
    get_releases parseEmptyOnly (.ok "[]") 200 (some ⟨100, "[]"⟩) =
      (.ok [], some ⟨100, "[]"⟩, [IndexEvent.parseSnapshot])
    ∧ get_releases parseEmptyOnly (.ok "[]") 200 none =
      (.ok [], some ⟨200, "[]"⟩,
        [IndexEvent.netRequest, IndexEvent.writeSnapshot,
         IndexEvent.parseResponse]) := by
  have h := get_releases_fresh_and_persist parseEmptyOnly (.ok "[]") 200
    (some ⟨100, "[]"⟩)
  have h2 := get_releases_fresh_and_persist parseEmptyOnly (.ok "[]") 200 none
  refine ⟨?_, ?_⟩
  · have := h.1 ⟨100, "[]"⟩ rfl (by decide)
    simpa [parseEmptyOnly] using this
  · have := (h2.2 (by intro s hs; cases hs)).2 "[]" rfl
    simpa [parseEmptyOnly] using this

/-- Claim C2, counterexample. The claim says that when the network request fails
and a (stale) snapshot exists, the lookup still succeeds from the snapshot.
In the code the failed `send()` propagates via `?`: with a stale snapshot
(mtime 0, current time 100000) and a failing network, `get_releases` returns
the network error, not a success. -/
theorem get_releases_no_stale_fallback_cex :
    (get_releases parseEmptyOnly (.error "connection refused") 100000
        (some ⟨0, "[]"⟩)).1 =
      .error (.netError "connection refused")
    ∧ ∀ rs, (get_releases parseEmptyOnly (.error "connection refused") 100000
        (some ⟨0, "[]"⟩)).1 ≠ .ok rs := by
  constructor
  · rfl
  · intro rs h
    simp [get_releases, isFresh, fetchReleases] at h

/-- Claim C2, amended. When the snapshot is absent or stale and the network
request fails, `get_releases` fails with the propagated network error — there
is no fallback to the stale snapshot and no distinct `IndexUnavailable`
variant — and the snapshot file is left unchanged.  Moreover the snapshot is
only ever (over)written by a successful fetch: whenever the returned snapshot
state differs from the initial one, the network returned a response text that
became, verbatim, the new snapshot content. -/
theorem get_releases_network_failure_propagates
    (parse : String → Except String (List Release))
    (net : Except String String) (currTime : Int) (snapshot : Option Snapshot) :
    ((∀ s, snapshot = some s → isFresh currTime s = false) →
      ∀ e, net = .error e →
        get_releases parse net currTime snapshot =
          (.error (.netError e), snapshot, [IndexEvent.netRequest]))
    ∧ ((get_releases parse net currTime snapshot).2.1 ≠ snapshot →
        ∃ text, net = .ok text ∧
          (get_releases parse net currTime snapshot).2.1 =
            some ⟨currTime, text⟩) := by
  have hfetch : ∀ e, net = .error e →
      fetchReleases parse net currTime snapshot =
        (.error (.netError e), snapshot, [IndexEvent.netRequest]) := by
    intro e he; subst he; rfl
  constructor
  · intro hstale e he
    cases snapshot with
    | none => exact hfetch e he
    | some s => simpa [get_releases, hstale s rfl] using hfetch e he
  · intro hchanged
    cases snapshot with
    | none =>
      cases net with
      | error e => simp [get_releases, fetchReleases] at hchanged
      | ok text => exact ⟨text, rfl, by simp [get_releases, fetchReleases]⟩
    | some s =>
      by_cases hf : isFresh currTime s = true
      · simp [get_releases, hf] at hchanged
      · cases net with
        | error e =>
          simp [get_releases, Bool.of_not_eq_true hf, fetchReleases] at hchanged
        | ok text =>
          refine ⟨text, rfl, ?_⟩
          simp [get_releases, Bool.of_not_eq_true hf, fetchReleases]

/-- Witness for `get_releases_network_failure_propagates`: with a stale
snapshot (mtime 0, current time 100000) and a failing network, the call
returns the network error and leaves the snapshot unchanged. -/
theorem get_releases_network_failure_propagates_witness :
    get_releases parseEmptyOnly (.error "down") 100000 (some ⟨0, "[]"⟩) =
      (.error (.netError "down"), some ⟨0, "[]"⟩, [IndexEvent.netRequest]) :=
  (get_releases_network_failure_propagates parseEmptyOnly (.error "down")
      100000 (some ⟨0, "[]"⟩)).1
    (by intro s hs; cases hs; decide) "down" rfl

/-- Claim C10. The freshness test compares `(curr_time - mtime).abs()` with one
hour, so a snapshot whose mtime lies in the future (by less than an hour) is
also treated as fresh: its content is parsed and returned with no network
request. -/
theorem get_releases_future_mtime_fresh
    (parse : String → Except String (List Release))
    (net : Except String String) (currTime : Int) (s : Snapshot)
    (hlt : currTime < s.mtime) (hwin : s.mtime - currTime < 60 * 60) :
    get_releases parse net currTime (some s) =
      ((parse s.content).mapError GetReleasesError.parseError, some s,
        [IndexEvent.parseSnapshot]) := by
  have hf : isFresh currTime s = true := by
    have h1 : currTime - s.mtime < 0 := by omega
    have h2 : (currTime - s.mtime).natAbs = (s.mtime - currTime).natAbs := by
      omega
    have h3 : (s.mtime - currTime).natAbs < 60 * 60 := by omega
    simpa [isFresh, h2] using h3
  simp [get_releases, hf]

/-- Witness for `get_releases_future_mtime_fresh`: a snapshot whose mtime is
3599 seconds in the future is served from disk, with no network request. -/
theorem get_releases_future_mtime_fresh_witness :
    get_releases parseEmptyOnly (.error "down") 0 (some ⟨3599, "[]"⟩) =
      (.ok [], some ⟨3599, "[]"⟩, [IndexEvent.parseSnapshot]) := by
  have := get_releases_future_mtime_fresh parseEmptyOnly (.error "down") 0
    ⟨3599, "[]"⟩ (by decide) (by decide)
  simpa [parseEmptyOnly] using this

/-! ## Theorems: pattern resolver -/

theorem optOr_assoc {α : Type _} (x y z : Option α) :
    (x.or y).or z = x.or (y.or z) := by
  cases x <;> rfl

theorem optOr_none {α : Type _} (x : Option α) : x.or none = x := by
  cases x <;> rfl

theorem optMap_or {α β : Type _} (f : α → β) (x y : Option α) :
    (x.or y).map f = (x.map f).or (y.map f) := by
  cases x <;> rfl

theorem getLast?_cons_or {α : Type _} (a : α) (l : List α) :
    (a :: l).getLast? = l.getLast?.or (some a) := by
  simpa using @List.getLast?_append _ [a] l

theorem getLast?_map {α β : Type _} (f : α → β) (l : List α) :
    (l.map f).getLast? = l.getLast?.map f := by
  induction l with
  | nil => rfl
  | cons a l ih =>
      rw [List.map_cons, getLast?_cons_or, getLast?_cons_or, ih, optMap_or]
      rfl

theorem foldl_assetStep_unpackable (reMatch : String → String → Bool)
    (an rname : String) (assets : List Asset) (st : GhResolution) :
    (assets.foldl (assetStep reMatch an rname) st).unpackable =
      Option.or
        (((assets.filter fun a => reMatch an a.name).getLast?).map
          fun a => (a.name, a.browser_download_url))
        st.unpackable := by
  induction assets generalizing st with
  | nil => simp
  | cons a as ih =>
      rw [List.foldl_cons, ih]
      by_cases h : reMatch an a.name = true
      · have hstep : (assetStep reMatch an rname st a).unpackable =
            some (a.name, a.browser_download_url) := by
          simp [assetStep, h]
        rw [hstep, List.filter_cons, if_pos h, getLast?_cons_or, optMap_or,
          optOr_assoc]
        rfl
      · have hstep : (assetStep reMatch an rname st a).unpackable =
            st.unpackable := by
          unfold assetStep
          rw [if_neg (by simpa using h)]
          split <;> rfl
        rw [hstep, List.filter_cons, if_neg h]

theorem foldl_assetStep_verbatim (reMatch : String → String → Bool)
    (an rname : String) (assets : List Asset) (st : GhResolution) :
    (assets.foldl (assetStep reMatch an rname) st).verbatim =
      st.verbatim ++
        (assets.filter fun a => !reMatch an a.name && a.name == "prelude").map
          (fun a => (a.name, a.browser_download_url)) := by
  induction assets generalizing st with
  | nil => simp
  | cons a as ih =>
      rw [List.foldl_cons, ih]
      by_cases h : reMatch an a.name = true
      · have hstep : (assetStep reMatch an rname st a).verbatim =
            st.verbatim := by
          simp [assetStep, h]
        rw [hstep, List.filter_cons, if_neg (by simp [h])]
      · by_cases hp : a.name = "prelude"
        · have hstep : (assetStep reMatch an rname st a).verbatim =
              st.verbatim ++ [(a.name, a.browser_download_url)] := by
            unfold assetStep
            rw [if_neg (by simpa using h), if_pos hp]
          have hcond : (!reMatch an a.name && a.name == "prelude") = true := by
            have hf : reMatch an a.name = false := by simpa using h
            rw [hf]
            simp [hp]
          rw [hstep, List.filter_cons, if_pos hcond,
            List.map_cons, List.append_assoc, List.singleton_append]
        · have hstep : (assetStep reMatch an rname st a).verbatim =
              st.verbatim := by
            unfold assetStep
            rw [if_neg (by simpa using h), if_neg hp]
          rw [hstep, List.filter_cons,
            if_neg (by simp [h, hp])]

theorem releaseStep_unpackable (reMatch : String → String → Bool)
    (gh : GithubRelease) (anEnv : String) (st : GhResolution) (r : Release) :
    (releaseStep reMatch gh anEnv st r).unpackable =
      Option.or ((matchingPairsOf reMatch gh anEnv r).getLast?)
        st.unpackable := by
  cases hn : r.name with
  | none => simp [releaseStep, matchingPairsOf, hn]
  | some rname =>
      by_cases hv : reMatch gh.version rname = true
      · simp only [releaseStep, matchingPairsOf, hn, hv, if_true]
        rw [foldl_assetStep_unpackable, getLast?_map]
        congr 1
        split <;> rfl
      · simp [releaseStep, matchingPairsOf, hn, hv]

theorem foldl_releaseStep_unpackable (reMatch : String → String → Bool)
    (gh : GithubRelease) (anEnv : String) (releases : List Release)
    (st : GhResolution) :
    (releases.foldl (releaseStep reMatch gh anEnv) st).unpackable =
      Option.or ((scanMatches reMatch gh anEnv releases).getLast?)
        st.unpackable := by
  induction releases generalizing st with
  | nil => simp [scanMatches]
  | cons r rs ih =>
      rw [List.foldl_cons, ih, releaseStep_unpackable]
      unfold scanMatches
      rw [List.flatMap_cons, List.getLast?_append, optOr_assoc]

theorem releaseStep_verbatim (reMatch : String → String → Bool)
    (gh : GithubRelease) (anEnv : String) (st : GhResolution) (r : Release) :
    (releaseStep reMatch gh anEnv st r).verbatim =
      st.verbatim ++ verbatimPairsOf reMatch gh anEnv r := by
  cases hn : r.name with
  | none => simp [releaseStep, verbatimPairsOf, hn]
  | some rname =>
      by_cases hv : reMatch gh.version rname = true
      · simp only [releaseStep, verbatimPairsOf, hn, hv, if_true]
        rw [foldl_assetStep_verbatim]
        congr 1
        split <;> rfl
      · simp [releaseStep, verbatimPairsOf, hn, hv]

theorem foldl_releaseStep_verbatim (reMatch : String → String → Bool)
    (gh : GithubRelease) (anEnv : String) (releases : List Release)
    (st : GhResolution) :
    (releases.foldl (releaseStep reMatch gh anEnv) st).verbatim =
      st.verbatim ++ scanVerbatims reMatch gh anEnv releases := by
  induction releases generalizing st with
  | nil => simp [scanVerbatims]
  | cons r rs ih =>
      rw [List.foldl_cons, ih, releaseStep_verbatim]
      unfold scanVerbatims
      rw [List.flatMap_cons, List.append_assoc]

/-- Claim C6. The resolver selects, among all (release, asset) pairs in which
the release's display name matches the version pattern and the asset's name
matches that release's expanded artifact pattern, the pair encountered LAST
while scanning in the provider's listing order: the selected candidate is
exactly `getLast?` of the in-order match list (so in particular no other
ranking or recency-based selection takes place). -/
theorem resolver_last_match_wins (reMatch : String → String → Bool)
    (artifact_pattern : String) (gh : GithubRelease)
    (arch os target : String) (output_dir : List String)
    (releases : List Release) :
    (resolveAssets reMatch artifact_pattern gh arch os target output_dir
        releases).unpackable =
      (scanMatches reMatch gh (expandEnvTokens artifact_pattern arch os target)
        releases).getLast? := by
  unfold resolveAssets
  rw [foldl_releaseStep_unpackable]
  exact optOr_none _

/-- Claim C7. Artifact-template expansion substitutes `%arch%`, `%os%` and
`%target%` from the runtime environment and `%version%` from the matched
release's display name, before the expanded string is compiled as a regular
expression (in the model, `releaseStep` feeds `reMatch` the fully expanded
string).  For the fixed linux/x86_64 environment and any version string `v`
free of the token marker `%`, the pattern `"tool-%version%-%os%-%arch%"`
expands deterministically to the one literal string
`"tool-" ++ v ++ "-linux-x86_64"`, in which no token remains. -/
theorem artifact_template_expansion (v : String) (hv : '%' ∉ v.toList) :
    replaceS
        (expandEnvTokens "tool-%version%-%os%-%arch%" "x86_64" "linux"
          "x86_64-unknown-linux-gnu")
        "%version%" v
      = "tool-" ++ v ++ "-linux-x86_64"
    ∧ ∀ tok ∈ ["%arch%", "%os%", "%target%", "%version%"],
        ¬ (tok.toList <:+: ("tool-" ++ v ++ "-linux-x86_64").toList) := by
  have h1 : expandEnvTokens "tool-%version%-%os%-%arch%" "x86_64" "linux"
      "x86_64-unknown-linux-gnu" = "tool-%version%-linux-x86_64" := by decide
  have h2 : replaceS "tool-%version%-linux-x86_64" "%version%" v =
      "tool-" ++ v ++ "-linux-x86_64" := rfl
  refine ⟨by rw [h1]; exact h2, ?_⟩
  intro tok htok hinf
  have hm : '%' ∈ ("tool-" ++ v ++ "-linux-x86_64").toList := by
    apply hinf.subset
    fin_cases htok <;> decide
  have hsplit : ("tool-" ++ v ++ "-linux-x86_64").toList =
      "tool-".toList ++ (v.toList ++ "-linux-x86_64".toList) := by
    simp [String.toList, String.data_append]
  rw [hsplit] at hm
  rcases List.mem_append.mp hm with hm1 | hm2
  · exact absurd hm1 (by decide)
  · rcases List.mem_append.mp hm2 with hm3 | hm4
    · exact hv hm3
    · exact absurd hm4 (by decide)

/-- Witness for `artifact_template_expansion` at the version string
`"4.0.0"`. -/
theorem artifact_template_expansion_witness :
    ('%' ∉ "4.0.0".toList)
    ∧ (replaceS
          (expandEnvTokens "tool-%version%-%os%-%arch%" "x86_64" "linux"
            "x86_64-unknown-linux-gnu")
          "%version%" "4.0.0"
        = "tool-" ++ "4.0.0" ++ "-linux-x86_64"
      ∧ ∀ tok ∈ ["%arch%", "%os%", "%target%", "%version%"],
          ¬ (tok.toList <:+:
              ("tool-" ++ "4.0.0" ++ "-linux-x86_64").toList)) :=
  ⟨by decide, artifact_template_expansion "4.0.0" (by decide)⟩

/-- Claim C8, counterexample. The claim says an asset whose name equals the
side-artifact label `"prelude"` is collected as a verbatim artifact
regardless of the template match and is never the executable candidate.  In
the code the `name == "prelude"` test is an `else if` behind the template
match: with the artifact pattern `"prelude"` (which matches the asset name
`"prelude"`), the asset is selected as the executable candidate and the
verbatim collection stays empty. -/
theorem prelude_collection_cex :
    (resolveAssets reMatchLit "prelude" ⟨"facebook", "buck2", "v1"⟩ "x86_64"
        "linux" "x86_64-unknown-linux-gnu" ["out"]
        [⟨"v1", "c0", some "v1", [⟨"prelude", "http://u"⟩]⟩]).verbatim = []
    ∧ (resolveAssets reMatchLit "prelude" ⟨"facebook", "buck2", "v1"⟩ "x86_64"
        "linux" "x86_64-unknown-linux-gnu" ["out"]
        [⟨"v1", "c0", some "v1", [⟨"prelude", "http://u"⟩]⟩]).unpackable =
      some ("prelude", "http://u") := by
  constructor <;> decide

/-- Claim C8, amended. An asset named `"prelude"` (in a version-matching
release) is collected as a verbatim artifact exactly when its name does NOT
match the expanded artifact pattern; an asset named `"prelude"` whose name
does match the pattern is instead selected as the executable candidate. -/
theorem prelude_collection_amended (reMatch : String → String → Bool)
    (artifact_pattern : String) (gh : GithubRelease) (arch os target : String)
    (output_dir : List String) (releases : List Release) :
    (resolveAssets reMatch artifact_pattern gh arch os target output_dir
        releases).verbatim =
      scanVerbatims reMatch gh
        (expandEnvTokens artifact_pattern arch os target) releases
    ∧ ∀ (st : GhResolution) (an rname : String) (a : Asset),
        a.name = "prelude" → reMatch an a.name = true →
          (assetStep reMatch an rname st a).unpackable =
            some (a.name, a.browser_download_url) := by
  constructor
  · unfold resolveAssets
    rw [foldl_releaseStep_verbatim]
    rfl
  · intro st an rname a _ hm
    simp [assetStep, hm]

/-- Witness for `prelude_collection_amended`: with the real artifact pattern
`"buck2-%target%.zst"` a `"prelude"` asset is collected verbatim, and with
the pattern `"prelude"` a matching `"prelude"` asset becomes the executable
candidate. -/
theorem prelude_collection_amended_witness :
    (resolveAssets reMatchLit "buck2-%target%.zst" ⟨"facebook", "buck2", "v1"⟩
        "x86_64" "linux" "x86_64-unknown-linux-gnu" ["out"]
        [⟨"v1", "c0", some "v1",
          [⟨"buck2-x86_64-unknown-linux-gnu.zst", "http://b"⟩,
           ⟨"prelude", "http://p"⟩]⟩]).verbatim = [("prelude", "http://p")]
    ∧ (assetStep reMatchLit "prelude" "v1" ⟨["out"], none, none, []⟩
        ⟨"prelude", "http://u"⟩).unpackable = some ("prelude", "http://u") := by
  refine ⟨?_, ?_⟩
  · rw [(prelude_collection_amended reMatchLit "buck2-%target%.zst"
      ⟨"facebook", "buck2", "v1"⟩ "x86_64" "linux" "x86_64-unknown-linux-gnu"
      ["out"]
      [⟨"v1", "c0", some "v1",
        [⟨"buck2-x86_64-unknown-linux-gnu.zst", "http://b"⟩,
         ⟨"prelude", "http://p"⟩]⟩]).1]
    decide
  · exact (prelude_collection_amended reMatchLit "x" ⟨"a", "b", "c"⟩ "a" "o"
      "t" [] []).2 ⟨["out"], none, none, []⟩ "prelude" "v1"
      ⟨"prelude", "http://u"⟩ rfl (by decide)

/-! ## Theorems: archive extractor -/

theorem pathSnoc_inj {dir : FilePath'} {a b : String}
    (h : dir ++ [a] = dir ++ [b]) : a = b := by
  have := List.append_cancel_left h
  simpa using this

/-- The verbatim loop leaves every path other than the artifacts' own final
paths untouched. -/
theorem writeVerbatims_preserves (dir_path : FilePath')
    (l : List (String × Except String (List Nat))) :
    ∀ (fs : FS) (q : FilePath'),
      (∀ n ∈ l.map Prod.fst, dir_path ++ [n] ≠ q) →
      (writeVerbatims dir_path l fs).2.1 q = fs q := by
  induction l with
  | nil => intro fs q _; rfl
  | cons x rest ih =>
      intro fs q hq
      obtain ⟨name, res⟩ := x
      cases res with
      | error e => rfl
      | ok bytes =>
          have hhead : dir_path ++ [name] ≠ q := hq name (by simp)
          have hstep :
              (writeVerbatims dir_path ((name, Except.ok bytes) :: rest)
                fs).2.1 =
                (writeVerbatims dir_path rest
                  (fsSet fs (dir_path ++ [name]) ⟨bytes, 0o644⟩)).2.1 := rfl
          rw [hstep, ih _ q (fun n hn => hq n (by simp [hn]))]
          unfold fsSet
          rw [if_neg (fun h => hhead h.symm)]

/-- When the verbatim loop completes without a failed fetch, its event trace
is one `writeVerbatim` per artifact, in list order. -/
theorem writeVerbatims_ok_trace (dir_path : FilePath')
    (l : List (String × Except String (List Nat))) :
    ∀ (fs : FS), (writeVerbatims dir_path l fs).1 = none →
      (writeVerbatims dir_path l fs).2.2 =
        l.map (fun v => ExtractEvent.writeVerbatim v.1) := by
  induction l with
  | nil => intro fs _; rfl
  | cons x rest ih =>
      intro fs hnone
      obtain ⟨name, res⟩ := x
      cases res with
      | error e => exact absurd hnone (by simp [writeVerbatims])
      | ok bytes =>
          have : (writeVerbatims dir_path ((name, Except.ok bytes) :: rest)
              fs).2.2 =
              ExtractEvent.writeVerbatim name ::
                (writeVerbatims dir_path rest
                  (fsSet fs (dir_path ++ [name]) ⟨bytes, 0o644⟩)).2.2 := rfl
          rw [this, ih _ (by exact hnone)]
          rfl

/-- When the verbatim loop completes without a failed fetch and the artifact
names are pairwise distinct, each artifact's bytes sit at its final path. -/
theorem writeVerbatims_content (dir_path : FilePath')
    (l : List (String × Except String (List Nat))) :
    ∀ (fs : FS), (l.map Prod.fst).Nodup →
      (writeVerbatims dir_path l fs).1 = none →
      ∀ n b, (n, Except.ok b) ∈ l →
        (writeVerbatims dir_path l fs).2.1 (dir_path ++ [n]) =
          some ⟨b, 0o644⟩ := by
  induction l with
  | nil => intro fs _ _ n b hmem; cases hmem
  | cons x rest ih =>
      intro fs hnodup hnone n b hmem
      obtain ⟨name, res⟩ := x
      cases res with
      | error e => exact absurd hnone (by simp [writeVerbatims])
      | ok bytes =>
          have hstep :
              (writeVerbatims dir_path ((name, Except.ok bytes) :: rest)
                fs).2.1 =
                (writeVerbatims dir_path rest
                  (fsSet fs (dir_path ++ [name]) ⟨bytes, 0o644⟩)).2.1 := rfl
          rcases List.mem_cons.mp hmem with hhd | htl
          · have hn : n = name := (Prod.ext_iff.mp hhd).1
            have hb : b = bytes := by
              have h2 := (Prod.ext_iff.mp hhd).2
              injection h2
            subst hn
            subst hb
            have hout : ∀ m ∈ rest.map Prod.fst,
                dir_path ++ [m] ≠ dir_path ++ [n] := by
              intro m hm he
              have hmn : m = n := pathSnoc_inj he
              subst hmn
              exact (List.nodup_cons.mp hnodup).1 hm
            rw [hstep, writeVerbatims_preserves dir_path rest _ _ hout]
            unfold fsSet
            rw [if_pos rfl]
          · rw [hstep]
            exact ih _ (List.nodup_cons.mp hnodup).2 (by exact hnone) n b htl

/-- Claim C1. Atomicity of `extract`: the payload is streamed and decoded into
a temp file inside the destination directory and the executable appears at
its final path `dir_path ++ [unpacked_name]` only through the final rename.
If `extract` fails (a failed verbatim fetch, a failed copy, or a failed
decode), the final path is exactly what it was before the call — absent if
it was absent, the previous version if one was there.  On success the final
path holds the complete decoded payload with the executable mode `0o755`,
and the rename is the last observable action of the run.  The hypotheses say
the fresh temp name and the verbatim artifact names differ from the
executable's name. -/
theorem extract_atomic (unpacked_name : String) (package_type : PackageType)
    (copyOutcome decodeOutcome : Except (List Nat) (List Nat))
    (verbatim : List (String × Except String (List Nat)))
    (dir_path : FilePath') (tmpName : String) (fs : FS)
    (htmp : tmpName ≠ unpacked_name)
    (hnames : unpacked_name ∉ verbatim.map Prod.fst) :
    (∀ e, (extract unpacked_name package_type copyOutcome decodeOutcome
        verbatim dir_path tmpName fs).1 = .error e →
      (extract unpacked_name package_type copyOutcome decodeOutcome verbatim
          dir_path tmpName fs).2.1 (dir_path ++ [unpacked_name]) =
        fs (dir_path ++ [unpacked_name]))
    ∧ (∀ p, (extract unpacked_name package_type copyOutcome decodeOutcome
        verbatim dir_path tmpName fs).1 = .ok p →
      p = dir_path ∧
      ∃ bytes, (match package_type with
          | PackageType.SingleFile => copyOutcome
          | PackageType.ZstdSingleFile => decodeOutcome) = .ok bytes
        ∧ (extract unpacked_name package_type copyOutcome decodeOutcome
            verbatim dir_path tmpName fs).2.1
              (dir_path ++ [unpacked_name]) = some ⟨bytes, 0o755⟩
        ∧ (extract unpacked_name package_type copyOutcome decodeOutcome
            verbatim dir_path tmpName fs).2.2.getLast? =
            some ExtractEvent.rename) := by
  have hbinfs1 : (writeVerbatims dir_path verbatim fs).2.1
      (dir_path ++ [unpacked_name]) = fs (dir_path ++ [unpacked_name]) := by
    refine writeVerbatims_preserves dir_path verbatim fs _ ?_
    intro m hm he
    exact hnames (pathSnoc_inj he ▸ hm)
  have htmppath : dir_path ++ [unpacked_name] ≠ dir_path ++ [tmpName] :=
    fun h => htmp (pathSnoc_inj h).symm
  unfold extract
  rcases hw : writeVerbatims dir_path verbatim fs with ⟨err, fs1, evs⟩
  rw [hw] at hbinfs1
  cases err with
  | some e =>
      refine ⟨fun _ _ => hbinfs1, fun p hp => absurd hp (by simp)⟩
  | none =>
      dsimp only
      cases ho : (match package_type with
          | PackageType.SingleFile => copyOutcome
          | PackageType.ZstdSingleFile => decodeOutcome) with
      | error pb =>
          refine ⟨fun _ _ => ?_, fun p hp => absurd hp (by simp)⟩
          dsimp only
          unfold fsRemove fsSet
          rw [if_neg htmppath, if_neg htmppath, if_neg htmppath]
          exact hbinfs1
      | ok bytes =>
          refine ⟨fun e he => absurd he (by simp), fun p hp => ?_⟩
          have hpd : p = dir_path := by
            dsimp only at hp
            exact (Except.ok.injEq .. ▸ hp).symm
          refine ⟨hpd, bytes, rfl, ?_, ?_⟩
          · dsimp only
            unfold fsSet
            rw [if_pos rfl]
          · dsimp only
            rw [List.getLast?_append]
            rfl

/-- Witness for `extract_atomic`: a copy that fails after 1 byte
(`SingleFile`), starting from an empty filesystem — the executable path is
still absent afterwards; and the error case of a decode failure over a
filesystem that already holds a previous version — the previous version is
still there. -/
theorem extract_atomic_witness :
    (extract "buck2" PackageType.SingleFile (.error [9]) (.ok [])
        [("prelude", .ok [1])] ["cache", "buck2", "c0"] ".tmpXYZ"
        (fun _ => none)).2.1 ["cache", "buck2", "c0", "buck2"] = none :=
  (extract_atomic "buck2" PackageType.SingleFile (.error [9]) (.ok [])
      [("prelude", .ok [1])] ["cache", "buck2", "c0"] ".tmpXYZ"
      (fun _ => none) (by decide) (by simp)).1
    ExtractError.copyFailed rfl

/-- Claim C5. In every successful extraction run, the verbatim side-artifacts
are fetched and written to their final paths in the destination directory
strictly before the main executable is renamed into place: the event trace
is exactly the verbatim writes, in order, followed by
`[createTemp, copyDone, chmod, rename]` — so no observer sees the
executable at its final path without the paired metadata already present —
and afterwards each verbatim artifact's bytes sit at its final path.
Hypotheses: the artifact names are pairwise distinct and differ from the
fresh temp name and from the executable's name. -/
theorem extract_verbatim_before_rename (unpacked_name : String)
    (package_type : PackageType)
    (copyOutcome decodeOutcome : Except (List Nat) (List Nat))
    (verbatim : List (String × Except String (List Nat)))
    (dir_path : FilePath') (tmpName : String) (fs : FS)
    (hnodup : (verbatim.map Prod.fst).Nodup)
    (htmp : tmpName ∉ verbatim.map Prod.fst)
    (hbin : unpacked_name ∉ verbatim.map Prod.fst)
    (hok : (extract unpacked_name package_type copyOutcome decodeOutcome
        verbatim dir_path tmpName fs).1 = .ok dir_path) :
    (extract unpacked_name package_type copyOutcome decodeOutcome verbatim
        dir_path tmpName fs).2.2 =
      verbatim.map (fun v => ExtractEvent.writeVerbatim v.1) ++
        [ExtractEvent.createTemp, ExtractEvent.copyDone, ExtractEvent.chmod,
         ExtractEvent.rename]
    ∧ ∀ n b, (n, Except.ok b) ∈ verbatim →
        (extract unpacked_name package_type copyOutcome decodeOutcome
            verbatim dir_path tmpName fs).2.1 (dir_path ++ [n]) =
          some ⟨b, 0o644⟩ := by
  unfold extract at hok ⊢
  rcases hw : writeVerbatims dir_path verbatim fs with ⟨err, fs1, evs⟩
  rw [hw] at hok
  cases err with
  | some e => exact absurd hok (by simp)
  | none =>
      dsimp only at hok ⊢
      cases ho : (match package_type with
          | PackageType.SingleFile => copyOutcome
          | PackageType.ZstdSingleFile => decodeOutcome) with
      | error pb =>
          rw [ho] at hok
          simp at hok
      | ok bytes =>
          constructor
          · have hevs : evs =
                verbatim.map (fun v => ExtractEvent.writeVerbatim v.1) := by
              have h := writeVerbatims_ok_trace dir_path verbatim fs
                (by rw [hw])
              rw [hw] at h
              exact h
            dsimp only
            rw [hevs]
          · intro n b hmem
            have hfs1 : fs1 (dir_path ++ [n]) = some ⟨b, 0o644⟩ := by
              have h := writeVerbatims_content dir_path verbatim fs hnodup
                (by rw [hw]) n b hmem
              rw [hw] at h
              exact h
            have hnmem : n ∈ verbatim.map Prod.fst :=
              List.mem_map.mpr ⟨(n, Except.ok b), hmem, rfl⟩
            have hn1 : dir_path ++ [n] ≠ dir_path ++ [tmpName] :=
              fun h => htmp (pathSnoc_inj h ▸ hnmem)
            have hn2 : dir_path ++ [n] ≠ dir_path ++ [unpacked_name] :=
              fun h => hbin (pathSnoc_inj h ▸ hnmem)
            dsimp only
            simp only [fsSet, fsRemove, if_neg hn2, if_neg hn1]
            exact hfs1

/-- Witness for `extract_verbatim_before_rename`: one `"prelude"` verbatim
artifact, a successful zstd decode — the trace puts the verbatim write first
and the rename last, and the artifact's bytes are at `d/prelude`. -/
theorem extract_verbatim_before_rename_witness :
    (extract "buck2" PackageType.ZstdSingleFile (.error []) (.ok [7, 7])
        [("prelude", .ok [1, 2])] ["d"] ".tmp0" (fun _ => none)).2.2 =
      [ExtractEvent.writeVerbatim "prelude", ExtractEvent.createTemp,
       ExtractEvent.copyDone, ExtractEvent.chmod, ExtractEvent.rename]
    ∧ (extract "buck2" PackageType.ZstdSingleFile (.error []) (.ok [7, 7])
        [("prelude", .ok [1, 2])] ["d"] ".tmp0" (fun _ => none)).2.1
        ["d", "prelude"] = some ⟨[1, 2], 0o644⟩ := by
  have h := extract_verbatim_before_rename "buck2" PackageType.ZstdSingleFile
    (.error []) (.ok [7, 7]) [("prelude", .ok [1, 2])] ["d"] ".tmp0"
    (fun _ => none) (by simp) (by simp) (by simp) rfl
  exact ⟨h.1, h.2 "prelude" [1, 2] (by simp)⟩

/-! ## Theorems: `download_from_github` as a whole -/

/-- Claim C3, counterexample. The claim says a second resolution with a
populated cache skips the fetch/extract step and makes zero asset requests.
`download_from_github` never consults the cache before fetching: even with
every path already present (`fun _ => true`, in particular the destination
directory and the final executable path) it issues the asset GET request
(request count 1, not 0) and re-downloads. -/
theorem idempotent_shortcircuit_cex :
    (download_from_github reMatchLit "buck2-%target%.zst"
        ⟨"facebook", "buck2", "v1"⟩ "x86_64" "linux"
        "x86_64-unknown-linux-gnu"
        [⟨"v1", "c0", some "v1",
          [⟨"buck2-x86_64-unknown-linux-gnu.zst", "http://b"⟩]⟩]
        ["cache", "buck2"] (fun _ => true) (fun _ => true)).2.1 = 1
    ∧ (download_from_github reMatchLit "buck2-%target%.zst"
        ⟨"facebook", "buck2", "v1"⟩ "x86_64" "linux"
        "x86_64-unknown-linux-gnu"
        [⟨"v1", "c0", some "v1",
          [⟨"buck2-x86_64-unknown-linux-gnu.zst", "http://b"⟩]⟩]
        ["cache", "buck2"] (fun _ => true) (fun _ => true)).1 =
      .ok (["cache", "buck2", "c0"], "http://b") := by
  exact ⟨by decide, rfl⟩

/-- Claim C3, amended. Re-resolving with a populated cache does return the
identical path — the result is entirely independent of the
directory-existence state — but the fetch/extract step is never skipped:
whenever the resolver selects an asset, the asset GET request is issued
(count 1), populated cache or not; only when no asset matches are zero
requests made. -/
theorem download_always_fetches (reMatch : String → String → Bool)
    (artifact_pattern : String) (gh : GithubRelease)
    (arch os target : String) (releases : List Release)
    (output_dir : List String) (assetOk : String → Bool)
    (d₁ d₂ : List String → Bool) :
    (download_from_github reMatch artifact_pattern gh arch os target releases
        output_dir assetOk d₁).1 =
      (download_from_github reMatch artifact_pattern gh arch os target
        releases output_dir assetOk d₂).1
    ∧ (download_from_github reMatch artifact_pattern gh arch os target
        releases output_dir assetOk d₁).2.1 =
      (download_from_github reMatch artifact_pattern gh arch os target
        releases output_dir assetOk d₂).2.1
    ∧ (download_from_github reMatch artifact_pattern gh arch os target
        releases output_dir assetOk d₁).2.1 =
      (if (resolveAssets reMatch artifact_pattern gh arch os target output_dir
          releases).unpackable.isSome then 1 else 0) := by
  unfold download_from_github
  dsimp only
  cases hu : (resolveAssets reMatch artifact_pattern gh arch os target
      output_dir releases).unpackable with
  | none => exact ⟨rfl, rfl, rfl⟩
  | some nu =>
      obtain ⟨nm, url⟩ := nu
      dsimp only
      cases ha : assetOk url <;> simp [ha]

/-! ## Theorems: consistency checker -/

/-- Claim C9, counterexample. The claim says an unreadable cached hash is
treated as "nothing to check" and the launch proceeds.  With a repository
and a prelude submodule present but an unreadable `prelude_hash` file,
`get_expected_prelude_hash` calls `File::open(..).unwrap()`, which panics
and aborts the process: the outcome is a panic, not a skipped check, and
the launch does not proceed. -/
theorem prelude_unreadable_hash_cex :
    verify_prelude
        ⟨some ["proj"],
         some ⟨some ["proj"],
           fun rel => if rel = ["prelude"] then some (some "abc123")
             else none⟩,
         none⟩ "prelude" =
      .panicked "called Result::unwrap on an Err value"
    ∧ launchProceeds (verify_prelude
        ⟨some ["proj"],
         some ⟨some ["proj"],
           fun rel => if rel = ["prelude"] then some (some "abc123")
             else none⟩,
         none⟩ "prelude") = false := by
  constructor <;> rfl

/-- Claim C9, amended. The consistency check treats the absence of a repository
and the absence of a submodule (or of its workdir id) at the declared path
as "nothing to check" and the launch proceeds; but an unreadable cached hash
is NOT "nothing to check" — it panics and aborts the launch.  On a hash
mismatch it emits to the error stream a diagnostic naming both hashes plus a
fetch-and-checkout remediation, and the launch proceeds. -/
theorem prelude_check_amended (root wd rel : List String) (p : String)
    (repo : Option GitRepo) (subs : List String → Option (Option String))
    (ch : Option String) (h content : String) :
    (repo = none → verify_prelude ⟨some root, repo, ch⟩ p = .skipped)
    ∧ (stripPathPre wd (root ++ [p]) = some rel → subs rel = none →
        verify_prelude ⟨some root, some ⟨some wd, subs⟩, ch⟩ p = .skipped)
    ∧ (stripPathPre wd (root ++ [p]) = some rel → subs rel = some none →
        verify_prelude ⟨some root, some ⟨some wd, subs⟩, ch⟩ p = .skipped)
    ∧ (stripPathPre wd (root ++ [p]) = some rel →
        subs rel = some (some h) →
        verify_prelude ⟨some root, some ⟨some wd, subs⟩, none⟩ p =
            .panicked "called Result::unwrap on an Err value"
          ∧ launchProceeds
              (verify_prelude ⟨some root, some ⟨some wd, subs⟩, none⟩ p) =
              false)
    ∧ (stripPathPre wd (root ++ [p]) = some rel →
        subs rel = some (some h) → h ≠ trimS content →
        verify_prelude ⟨some root, some ⟨some wd, subs⟩, some content⟩ p =
            .warned
              ("buckle: Git submodule for prelude (" ++ h
                ++ ") is not the expected " ++ trimS content ++ ".")
              ("buckle: cd " ++ pathStr (root ++ [p])
                ++ " && git fetch && git checkout " ++ trimS content)
          ∧ launchProceeds
              (verify_prelude ⟨some root, some ⟨some wd, subs⟩, some content⟩
                p) = true) := by
  refine ⟨?_, ?_, ?_, ?_, ?_⟩
  · intro hr
    subst hr
    rfl
  · intro hs hsub
    simp [verify_prelude, hs, hsub]
  · intro hs hsub
    simp [verify_prelude, hs, hsub]
  · intro hs hsub
    constructor <;>
      simp [verify_prelude, hs, hsub, get_expected_prelude_hash,
        launchProceeds]
  · intro hs hsub hne
    constructor <;>
      simp [verify_prelude, hs, hsub, get_expected_prelude_hash, hne,
        launchProceeds]

/-- Witness for `prelude_check_amended`: a missing repository is skipped,
and a concrete mismatch (submodule at `def456`, cached hash `abc123` with a
trailing newline) produces the two diagnostic lines naming both hashes and
the remediation, with the launch proceeding. -/
theorem prelude_check_amended_witness :
    verify_prelude ⟨some ["proj"], none, some "abc"⟩ "prelude" = .skipped
    ∧ verify_prelude
        ⟨some ["proj"],
         some ⟨some ["proj"],
           fun rel => if rel = ["prelude"] then some (some "def456")
             else none⟩,
         some "abc123\n"⟩ "prelude" =
      .warned
        "buckle: Git submodule for prelude (def456) is not the expected abc123."
        "buckle: cd proj/prelude && git fetch && git checkout abc123" := by
  have h := prelude_check_amended ["proj"] ["proj"] ["prelude"] "prelude"
    none (fun rel => if rel = ["prelude"] then some (some "def456") else none)
    (some "abc") "def456" "abc123\n"
  refine ⟨h.1 rfl, ?_⟩
  have h2 := (h.2.2.2.2 (by decide) (by simp) (by decide)).1
  exact h2.trans (by decide)

end Buckle
